import Mathlib

/-!
Shallow embedding of the GameCaster-AI real-time streaming core.

The definitions below are translated from the TypeScript sources:
  - src/services/geminiLiveService.ts  (class GeminiLiveService: connect,
    startAudioInput, createPcmData, handleMessage, mute, disconnect)
  - src/constants.ts                   (HYPE_MODIFIER)
  - the frame-streaming interval loop of the LiveCaster component and
    VideoPlayer.getFrame (1500 ms setInterval, fire-and-forget sendFrame)

Conventions of the embedding:
  - the audio-clock time line is modelled with rationals;
  - JavaScript exceptions are modelled with Except, and the try/catch
    blocks of the source become total functions that discard the error;
  - the mutable fields of the GeminiLiveService instance become one
    record, ServiceState, threaded explicitly through each method;
  - callback invocations observable by the host application (onError,
    onSubtitle, onLog, onResponse) are recorded in ghost lists of the
    state, and the stop() calls issued to WebAudio source nodes are
    recorded in the ghost list stoppedUnits.
-/

/-- State of a WebAudio AudioContext (running, suspended or closed). -/
inductive CtxState where
  | running : CtxState
  | suspended : CtxState
  | closed : CtxState
deriving DecidableEq, Repr

/-- A WebAudio AudioContext: its lifecycle state and its clock. -/
structure AudioCtx where
  ctxState : CtxState
  currentTime : ℚ
deriving DecidableEq, Repr

/-- A MediaStream returned by getUserMedia; we only track whether its
tracks have been stopped. -/
structure MediaStreamState where
  tracksStopped : Bool
deriving DecidableEq, Repr

/-- An AudioBufferSourceNode scheduled by handleMessage: its scheduled
start time, the duration of its buffer, and its playback flags. -/
structure SourceUnit where
  startTime : ℚ
  duration : ℚ
  started : Bool
  finished : Bool
  stopped : Bool
deriving DecidableEq, Repr

/-- WebAudio semantics of AudioBufferSourceNode.stop(): it throws an
InvalidStateError when the node was never started, and is a no-op on a
node that has already finished playing. -/
def stopSource (u : SourceUnit) : Except String SourceUnit :=
  if u.started then
    Except.ok (if u.finished then u else { u with stopped := true })
  else
    Except.error "InvalidStateError"

/-- The sources wrap every stop() in try/catch and ignore the error;
this is the resulting total function. -/
def tryStop (u : SourceUnit) : SourceUnit :=
  match stopSource u with
  | Except.ok u2 => u2
  | Except.error _ => u

/-- The mutable instance fields of class GeminiLiveService, plus ghost
lists recording the externally observable callback invocations. -/
structure ServiceState where
  isConnected : Bool
  session : Option Bool
  audioContext : Option AudioCtx
  gainNode : Option ℚ
  audioQueueNextStartTime : ℚ
  activeSources : List SourceUnit
  inputMediaStream : Option MediaStreamState
  inputAudioContext : Option AudioCtx
  stoppedUnits : List SourceUnit
  logs : List String
  errorsRaised : List String
  subtitles : List String
  responses : ℕ
deriving DecidableEq, Repr

/-! ## PCM Encoder (GeminiLiveService.createPcmData) -/

/-- Truncation toward zero, as performed by the ToInt16 abstract
operation when a JavaScript number is stored into an Int16Array. -/
def ratTrunc (q : ℚ) : ℤ :=
  if q < 0 then ⌈q⌉ else ⌊q⌋

/-- Wrap an integer into the signed 16-bit range, the second half of
the ToInt16 abstract operation. -/
def toInt16 (v : ℤ) : ℤ :=
  (v + 32768) % 65536 - 32768

/-- One loop iteration of createPcmData: clamp the sample to [-1, 1]
with Math.max / Math.min, scale negative values by 0x8000 and
non-negative values by 0x7FFF, and store into the Int16Array. -/
def sampleToInt16 (x : ℚ) : ℤ :=
  let s := max (-1) (min 1 x)
  toInt16 (if s < 0 then ratTrunc (s * 32768) else ratTrunc (s * 32767))

/-- Viewing the Int16Array buffer as a Uint8Array yields the
little-endian byte pair of each element. -/
def int16ToBytesLE (v : ℤ) : List ℕ :=
  [((v % 65536).toNat) % 256, ((v % 65536).toNat) / 256]

/-- The base64 alphabet used by btoa. -/
def base64Chars : List Char :=
  "ABCDEFGHIJKLMNOPQRSTUVWXYZabcdefghijklmnopqrstuvwxyz0123456789+/".toList

/-- Look up one base64 digit. -/
def b64c (n : ℕ) : Char := base64Chars.getD n '?'

/-- Standard base64 encoding of a byte sequence, the semantics of
btoa applied to the binary string built by createPcmData. -/
def base64Encode : List ℕ → List Char
  | [] => []
  | [b0] => [b64c (b0 / 4), b64c (b0 % 4 * 16), '=', '=']
  | [b0, b1] => [b64c (b0 / 4), b64c (b0 % 4 * 16 + b1 / 16), b64c (b1 % 16 * 4), '=']
  | b0 :: b1 :: b2 :: rest =>
      b64c (b0 / 4) :: b64c (b0 % 4 * 16 + b1 / 16) ::
      b64c (b1 % 16 * 4 + b2 / 64) :: b64c (b2 % 64) :: base64Encode rest

/-- GeminiLiveService.createPcmData: map every float sample to a signed
16-bit integer, serialize the Int16Array buffer little-endian, and
base64-encode the resulting binary string with btoa. -/
def createPcmData (data : List ℚ) : String :=
  String.mk (base64Encode ((data.map sampleToInt16).flatMap int16ToBytesLE))

/-! ## Hype modifier (src/constants.ts) -/

/-- HYPE_MODIFIER from src/constants.ts. -/
def HYPE_MODIFIER (level : ℕ) : String :=
  if level < 30 then " Keep it calm."
  else if level > 70 then " MAXIMUM VOLUME AND SPEED."
  else " Balanced energy."

/-! ## Inbound message dispatch (GeminiLiveService.handleMessage)

A LiveServerMessage is reduced to the three independent pieces of
content the dispatcher inspects: an optional inbound audio payload
(abstracted, past the external decodeBase64/decodeAudioData helpers of
the missing utils module, to the duration of the decoded buffer), an
optional transcription text, and the interrupted flag. -/

/-- The content of one inbound LiveServerMessage as far as
handleMessage inspects it. -/
structure ServerMessage where
  audioDuration : Option ℚ
  transcriptText : Option String
  interrupted : Bool
deriving DecidableEq, Repr

/-- handleMessage first fires the onResponse callback for every
message. -/
def bumpResponses (st : ServiceState) : ServiceState :=
  { st with responses := st.responses + 1 }

/-- Branch 1 of handleMessage: when the message carries audio and both
audioContext and gainNode exist, create a source node for the decoded
buffer, clamp the queue cursor to currentTime when it has fallen
behind, start the source at the cursor, advance the cursor by the
buffer duration, and push the source onto activeSources. -/
def applyAudioBranch (dOpt : Option ℚ) (st : ServiceState) : ServiceState :=
  match dOpt with
  | none => st
  | some d =>
    let st1 := { st with logs := st.logs ++ ["Received Audio Chunk"] }
    match st1.audioContext, st1.gainNode with
    | some ctx, some _ =>
      let currentTime := ctx.currentTime
      let cursor :=
        if st1.audioQueueNextStartTime < currentTime then currentTime
        else st1.audioQueueNextStartTime
      let source : SourceUnit :=
        { startTime := cursor, duration := d,
          started := true, finished := false, stopped := false }
      { st1 with audioQueueNextStartTime := cursor + d,
                 activeSources := st1.activeSources ++ [source] }
    | _, _ => st1

/-- Branch 2 of handleMessage: an outputTranscription text fires the
onSubtitle callback. -/
def applySubtitleBranch (tOpt : Option String) (st : ServiceState) : ServiceState :=
  match tOpt with
  | none => st
  | some t => { st with subtitles := st.subtitles ++ [t] }

/-- Branch 3 of handleMessage: on serverContent.interrupted, stop every
source in activeSources (each stop wrapped in try/catch), clear the
list, and reset the queue cursor to currentTime when the audioContext
exists. -/
def applyInterruptBranch (interrupted : Bool) (st : ServiceState) : ServiceState :=
  if interrupted then
    let st1 := { st with logs := st.logs ++ ["Model Interrupted."],
                         stoppedUnits := st.stoppedUnits ++ st.activeSources.map tryStop,
                         activeSources := [] }
    match st1.audioContext with
    | some ctx => { st1 with audioQueueNextStartTime := ctx.currentTime }
    | none => st1
  else st

/-- GeminiLiveService.handleMessage: the three content checks are
performed independently and in order on every message. -/
def handleMessage (msg : ServerMessage) (st : ServiceState) : ServiceState :=
  applyInterruptBranch msg.interrupted
    (applySubtitleBranch msg.transcriptText
      (applyAudioBranch msg.audioDuration (bumpResponses st)))

/-- Advance the output AudioContext clock to the moment an inbound
message is dispatched. -/
def setClock (now : ℚ) (st : ServiceState) : ServiceState :=
  { st with audioContext := st.audioContext.map (fun c => { c with currentTime := now }) }

/-- Delivery of one inbound audio payload of duration d at device-clock
time now. -/
def deliverAudio (now d : ℚ) (st : ServiceState) : ServiceState :=
  handleMessage { audioDuration := some d, transcriptText := none, interrupted := false }
    (setClock now st)

/-- Delivery of a sequence of inbound audio payloads, each given as a
pair of its arrival clock time and its decoded duration. -/
def deliverAll (arrivals : List (ℚ × ℚ)) (st : ServiceState) : ServiceState :=
  arrivals.foldl (fun s p => deliverAudio p.1 p.2 s) st

/-- Delivery of an interruption signal at device-clock time now. -/
def deliverInterrupt (now : ℚ) (st : ServiceState) : ServiceState :=
  handleMessage { audioDuration := none, transcriptText := none, interrupted := true }
    (setClock now st)

/-- Each arrival comes in before the playback cursor would fall behind
the device clock: at every step the arrival time is at most the cursor
value the scheduler holds at that moment. -/
def arrivesInTime : ℚ → List (ℚ × ℚ) → Bool
  | _, [] => true
  | c, (now, d) :: rest => decide (now ≤ c) && arrivesInTime (c + d) rest

/-! ## Mute (GeminiLiveService.mute) -/

/-- GeminiLiveService.mute: when gainNode and audioContext exist, set
the gain to 0 or 1 at currentTime; when unmuting a suspended context,
resume it. Nothing else is touched. -/
def mute (muted : Bool) (st : ServiceState) : ServiceState :=
  match st.gainNode, st.audioContext with
  | some _, some ctx =>
    let st1 := { st with gainNode := some (if muted then 0 else 1) }
    if muted = false ∧ ctx.ctxState = CtxState.suspended then
      { st1 with audioContext := some { ctx with ctxState := CtxState.running } }
    else st1
  | _, _ => st

/-! ## Teardown (GeminiLiveService.disconnect) -/

/-- GeminiLiveService.disconnect: clear isConnected, stop (try/catch)
and drop every active source, stop the microphone tracks and release
the stream, close (try/catch) and release the input AudioContext,
close (try/catch) and release the session, close (try/catch) and
release the output AudioContext. Each close result is discarded, so
the whole function is total. -/
def disconnect (st : ServiceState) : ServiceState :=
  let st1 := { st with isConnected := false }
  let st2 := { st1 with stoppedUnits := st1.stoppedUnits ++ st1.activeSources.map tryStop,
                        activeSources := [] }
  let st3 :=
    match st2.inputMediaStream with
    | none => st2
    | some _ => { st2 with inputMediaStream := none }
  let st4 :=
    match st3.inputAudioContext with
    | none => st3
    | some _ => { st3 with inputAudioContext := none }
  let st5 :=
    match st4.session with
    | none => st4
    | some _ => { st4 with logs := st4.logs ++ ["Closing session..."], session := none }
  match st5.audioContext with
  | none => st5
  | some _ => { st5 with audioContext := none }

/-- Every resource owned by the service instance has been stopped,
closed or released. -/
def released (st : ServiceState) : Bool :=
  !st.isConnected && st.activeSources.isEmpty && st.inputMediaStream.isNone &&
  st.inputAudioContext.isNone && st.session.isNone && st.audioContext.isNone

/-! ## Microphone input (GeminiLiveService.startAudioInput and the
onaudioprocess handler) -/

/-- An outbound realtime chunk handed to session.sendRealtimeInput. -/
structure OutboundChunk where
  mimeType : String
  data : String
deriving DecidableEq, Repr

/-- The onaudioprocess handler installed on the ScriptProcessorNode:
when the channel is not open (not connected, or no session) the window
is dropped on the spot — the state is left untouched and nothing is
sent; otherwise the window is PCM-encoded and sent immediately. -/
def onAudioProcess (window : List ℚ) (st : ServiceState) :
    ServiceState × Option OutboundChunk :=
  if !st.isConnected || st.session.isNone then (st, none)
  else
    (st, some { mimeType := "audio/pcm;rate=16000", data := createPcmData window })

/-- GeminiLiveService.startAudioInput, with the outcome of
navigator.mediaDevices.getUserMedia passed in explicitly. The whole
body sits in one try/catch whose handler only logs, so microphone
failure touches nothing but the log. On success the input stream and a
16 kHz input AudioContext are installed and the success line is
logged. -/
def startAudioInput (micResult : Except String MediaStreamState)
    (st : ServiceState) : ServiceState :=
  match micResult with
  | Except.error _ =>
    { st with logs := st.logs ++ ["Microphone access denied or error. (Check permissions)"] }
  | Except.ok stream =>
    { st with inputMediaStream := some stream,
              inputAudioContext := some { ctxState := CtxState.running, currentTime := 0 },
              logs := st.logs ++ ["Microphone connected & streaming."] }

/-! ## Connect (GeminiLiveService.connect) -/

/-- The catch block of connect: log the failure, fire the onError
callback with it, then run the full disconnect teardown. -/
def onConnectError (e : String) (st : ServiceState) : ServiceState :=
  disconnect { st with logs := st.logs ++ ["Connection Failed: " ++ e],
                       errorsRaised := st.errorsRaised ++ [e] }

/-- GeminiLiveService.connect, with the outcomes of the output
AudioContext construction, of client.live.connect and of the
microphone acquisition passed in explicitly. Any exception thrown by
the first two steps lands in the catch block; startAudioInput catches
internally and never throws into this scope. On a successful channel
open the onopen callback marks the service connected. -/
def connect (ctxResult : Except String AudioCtx)
    (channelResult : Except String Unit)
    (micResult : Except String MediaStreamState)
    (st : ServiceState) : ServiceState :=
  let st0 := { st with logs := st.logs ++ ["Initializing Audio Context..."] }
  match ctxResult with
  | Except.error e => onConnectError e st0
  | Except.ok ctx =>
    let st1 := { st0 with audioContext := some ctx, gainNode := some 1,
                          logs := st0.logs ++ ["Connecting to Gemini Live API..."] }
    match channelResult with
    | Except.error e => onConnectError e st1
    | Except.ok _ =>
      let st2 := { st1 with session := some true, isConnected := true,
                            logs := st1.logs ++ ["Session Opened."] }
      startAudioInput micResult st2

/-! ## Video Frame Sampler (LiveCaster frame-streaming effect and
VideoPlayer.getFrame)

The effect installs window.setInterval(sendFrame, 1500) with no
in-flight guard of any kind: every timer tick invokes sendFrame, which
starts a fresh getFrame capture regardless of whether an earlier
capture is still pending. Tick i of the interval fires at time
1500 * (i + 1) milliseconds after installation. -/

/-- The frame-streaming interval period in milliseconds. -/
def tickIntervalMs : ℕ := 1500

/-- The time at which interval tick i fires. -/
def frameTickStart (i : ℕ) : ℕ := tickIntervalMs * (i + 1)

/-- The capture start times of the first n ticks: the interval callback
runs sendFrame unconditionally, so every tick starts its own capture at
its own tick time. -/
def captureStartTimes (n : ℕ) : List ℕ :=
  (List.range n).map frameTickStart

/-- The number of captures in flight at time t, when each capture takes
captureMs milliseconds: the ticks that have fired by t whose capture
has not yet completed. -/
def captureInFlightAt (captureMs t : ℕ) : ℕ :=
  ((List.range (t / tickIntervalMs)).filter
    (fun i => frameTickStart i ≤ t && t < frameTickStart i + captureMs)).length

/-- Default element used with List.getD over source-unit lists. -/
def noUnit : SourceUnit :=
  { startTime := 0, duration := 0, started := false, finished := false, stopped := false }

/-- The gapless schedule: units of durations ds laid out back-to-back
starting at cursor position c. -/
def backToBack (c : ℚ) : List ℚ → List SourceUnit
  | [] => []
  | d :: ds =>
    { startTime := c, duration := d, started := true, finished := false, stopped := false }
      :: backToBack (c + d) ds

/-! ## Demo states used by the concrete witnesses -/

/-- A running output AudioContext at clock time 0. -/
def demoCtx : AudioCtx := { ctxState := CtxState.running, currentTime := 0 }

/-- A connected service whose playback cursor sits at 10. -/
def demoState : ServiceState :=
  { isConnected := true, session := some true, audioContext := some demoCtx,
    gainNode := some 1, audioQueueNextStartTime := 10, activeSources := [],
    inputMediaStream := none, inputAudioContext := none, stoppedUnits := [],
    logs := [], errorsRaised := [], subtitles := [], responses := 0 }

/-- A started, unfinished source unit scheduled at time 4 for 3 time units. -/
def demoUnit : SourceUnit :=
  { startTime := 4, duration := 3, started := true, finished := false, stopped := false }

example : captureInFlightAt 2000 3000 = 2 := by decide
example : captureInFlightAt 1000 3200 = 1 := by decide
example : captureInFlightAt 1000 1400 = 0 := by decide

example : sampleToInt16 1 = 32767 := by
  norm_num [sampleToInt16, toInt16, ratTrunc]
example : sampleToInt16 (-1) = -32768 := by
  norm_num [sampleToInt16, toInt16, ratTrunc, Int.ceil_neg]
example : sampleToInt16 0 = 0 := by
  norm_num [sampleToInt16, toInt16, ratTrunc]
example : sampleToInt16 2 = 32767 := by
  norm_num [sampleToInt16, toInt16, ratTrunc]
example : sampleToInt16 (-3/2) = -32768 := by
  norm_num [sampleToInt16, toInt16, ratTrunc, Int.ceil_neg]
example : HYPE_MODIFIER 29 = " Keep it calm." := by decide
example : HYPE_MODIFIER 30 = " Balanced energy." := by decide
example : HYPE_MODIFIER 71 = " MAXIMUM VOLUME AND SPEED." := by decide

/-! ## Claim theorems -/

/-- C10: for every hype-intensity value in 0-100, HYPE_MODIFIER picks
exactly one of the three modifiers, determined by the two thresholds:
below 30 the calm modifier, above 70 the maximum-energy modifier, and
the balanced modifier otherwise. -/
theorem hype_modifier_thresholds (level : ℕ) (h : level ≤ 100) :
    (HYPE_MODIFIER level = " Keep it calm." ∨
     HYPE_MODIFIER level = " MAXIMUM VOLUME AND SPEED." ∨
     HYPE_MODIFIER level = " Balanced energy.") ∧
    (HYPE_MODIFIER level = " Keep it calm." ↔ level < 30) ∧
    (HYPE_MODIFIER level = " MAXIMUM VOLUME AND SPEED." ↔ 70 < level) ∧
    (HYPE_MODIFIER level = " Balanced energy." ↔ (30 ≤ level ∧ level ≤ 70)) := by
  unfold HYPE_MODIFIER
  split_ifs with h1 h2
  · exact ⟨Or.inl rfl, iff_of_true rfl h1,
      iff_of_false (by decide) (by omega), iff_of_false (by decide) (by omega)⟩
  · exact ⟨Or.inr (Or.inl rfl), iff_of_false (by decide) (by omega),
      iff_of_true rfl h2, iff_of_false (by decide) (by omega)⟩
  · exact ⟨Or.inr (Or.inr rfl), iff_of_false (by decide) (by omega),
      iff_of_false (by decide) (by omega), iff_of_true rfl ⟨by omega, by omega⟩⟩

/-- Witness for C10 at hype level 50. -/
theorem hype_modifier_thresholds_witness :
    50 ≤ 100 ∧
    ((HYPE_MODIFIER 50 = " Keep it calm." ∨
      HYPE_MODIFIER 50 = " MAXIMUM VOLUME AND SPEED." ∨
      HYPE_MODIFIER 50 = " Balanced energy.") ∧
     (HYPE_MODIFIER 50 = " Keep it calm." ↔ 50 < 30) ∧
     (HYPE_MODIFIER 50 = " MAXIMUM VOLUME AND SPEED." ↔ 70 < 50) ∧
     (HYPE_MODIFIER 50 = " Balanced energy." ↔ (30 ≤ 50 ∧ 50 ≤ 70))) :=
  ⟨by decide, hype_modifier_thresholds 50 (by decide)⟩

/-- C4: mute only touches the output gain (and, on unmute, the
suspended flag of the output context): the playback cursor, the
active-source list with its scheduled start times, and every other
piece of service state are identical before and after the call. -/
theorem mute_transparency (muted : Bool) (st : ServiceState) :
    (mute muted st).audioQueueNextStartTime = st.audioQueueNextStartTime ∧
    (mute muted st).activeSources = st.activeSources ∧
    (mute muted st).stoppedUnits = st.stoppedUnits ∧
    (mute muted st).session = st.session ∧
    (mute muted st).isConnected = st.isConnected ∧
    (mute muted st).inputMediaStream = st.inputMediaStream ∧
    (mute muted st).inputAudioContext = st.inputAudioContext ∧
    (mute muted st).logs = st.logs ∧
    (mute muted st).errorsRaised = st.errorsRaised ∧
    (mute muted st).audioContext.map AudioCtx.currentTime
      = st.audioContext.map AudioCtx.currentTime := by
  unfold mute
  cases hg : st.gainNode <;> cases hc : st.audioContext <;> simp [hg, hc]
  split <;> simp [hc]

/-- C6: an outbound microphone window produced while the channel is
not open (not connected, or no session) is dropped on the spot:
nothing is sent and the service state is untouched. -/
theorem mic_chunk_dropped_when_closed (window : List ℚ) (st : ServiceState)
    (h : st.isConnected = false ∨ st.session = none) :
    onAudioProcess window st = (st, none) := by
  unfold onAudioProcess
  rcases h with h | h <;> simp [h]

/-- Witness for C6 on a disconnected state. -/
theorem mic_chunk_dropped_when_closed_witness :
    (({ demoState with isConnected := false } : ServiceState).isConnected = false ∨
     ({ demoState with isConnected := false } : ServiceState).session = none) ∧
    onAudioProcess [1/2] { demoState with isConnected := false }
      = ({ demoState with isConnected := false }, none) :=
  ⟨Or.inl rfl, mic_chunk_dropped_when_closed [1/2] _ (Or.inl rfl)⟩

/-- C7: a failed microphone acquisition only appends the degraded-mode
log line; the error callback is not fired, the session and connection
flag are untouched, and the scheduler state is unchanged. -/
theorem mic_failure_nonfatal (e : String) (st : ServiceState) :
    (startAudioInput (Except.error e) st).errorsRaised = st.errorsRaised ∧
    (startAudioInput (Except.error e) st).session = st.session ∧
    (startAudioInput (Except.error e) st).isConnected = st.isConnected ∧
    (startAudioInput (Except.error e) st).audioContext = st.audioContext ∧
    (startAudioInput (Except.error e) st).gainNode = st.gainNode ∧
    (startAudioInput (Except.error e) st).audioQueueNextStartTime
      = st.audioQueueNextStartTime ∧
    (startAudioInput (Except.error e) st).activeSources = st.activeSources ∧
    (startAudioInput (Except.error e) st).inputMediaStream = st.inputMediaStream ∧
    (startAudioInput (Except.error e) st).inputAudioContext = st.inputAudioContext ∧
    (startAudioInput (Except.error e) st).logs
      = st.logs ++ ["Microphone access denied or error. (Check permissions)"] := by
  unfold startAudioInput
  simp

/-! ## Helper lemmas about disconnect -/

lemma disconnect_isConnected (st : ServiceState) :
    (disconnect st).isConnected = false := by
  unfold disconnect
  cases hm : st.inputMediaStream <;> cases hic : st.inputAudioContext <;>
    cases hs : st.session <;> cases hac : st.audioContext <;> simp [hm, hic, hs, hac]

lemma disconnect_activeSources (st : ServiceState) :
    (disconnect st).activeSources = [] := by
  unfold disconnect
  cases hm : st.inputMediaStream <;> cases hic : st.inputAudioContext <;>
    cases hs : st.session <;> cases hac : st.audioContext <;> simp [hm, hic, hs, hac]

lemma disconnect_inputMediaStream (st : ServiceState) :
    (disconnect st).inputMediaStream = none := by
  unfold disconnect
  cases hm : st.inputMediaStream <;> cases hic : st.inputAudioContext <;>
    cases hs : st.session <;> cases hac : st.audioContext <;> simp [hm, hic, hs, hac]

lemma disconnect_inputAudioContext (st : ServiceState) :
    (disconnect st).inputAudioContext = none := by
  unfold disconnect
  cases hm : st.inputMediaStream <;> cases hic : st.inputAudioContext <;>
    cases hs : st.session <;> cases hac : st.audioContext <;> simp [hm, hic, hs, hac]

lemma disconnect_session (st : ServiceState) :
    (disconnect st).session = none := by
  unfold disconnect
  cases hm : st.inputMediaStream <;> cases hic : st.inputAudioContext <;>
    cases hs : st.session <;> cases hac : st.audioContext <;> simp [hm, hic, hs, hac]

lemma disconnect_audioContext (st : ServiceState) :
    (disconnect st).audioContext = none := by
  unfold disconnect
  cases hm : st.inputMediaStream <;> cases hic : st.inputAudioContext <;>
    cases hs : st.session <;> cases hac : st.audioContext <;> simp [hm, hic, hs, hac]

lemma disconnect_stoppedUnits (st : ServiceState) :
    (disconnect st).stoppedUnits = st.stoppedUnits ++ st.activeSources.map tryStop := by
  unfold disconnect
  cases hm : st.inputMediaStream <;> cases hic : st.inputAudioContext <;>
    cases hs : st.session <;> cases hac : st.audioContext <;> simp [hm, hic, hs, hac]

lemma disconnect_errorsRaised (st : ServiceState) :
    (disconnect st).errorsRaised = st.errorsRaised := by
  unfold disconnect
  cases hm : st.inputMediaStream <;> cases hic : st.inputAudioContext <;>
    cases hs : st.session <;> cases hac : st.audioContext <;> simp [hm, hic, hs, hac]

lemma disconnect_logs (st : ServiceState) :
    (disconnect st).logs
      = st.logs ++ (if st.session.isSome then ["Closing session..."] else []) := by
  unfold disconnect
  cases hm : st.inputMediaStream <;> cases hic : st.inputAudioContext <;>
    cases hs : st.session <;> cases hac : st.audioContext <;> simp [hm, hic, hs, hac]

lemma released_disconnect (st : ServiceState) : released (disconnect st) = true := by
  simp [released, disconnect_isConnected, disconnect_activeSources,
    disconnect_inputMediaStream, disconnect_inputAudioContext,
    disconnect_session, disconnect_audioContext]

lemma disconnect_of_released (st : ServiceState) (h : released st = true) :
    disconnect st = st := by
  cases st with
  | mk ic se ac gn cur as ims iac su lg er sub resp =>
    unfold released at h
    simp only [Bool.and_eq_true, Bool.not_eq_true', Option.isNone_iff_eq_none,
      List.isEmpty_iff] at h
    obtain ⟨⟨⟨⟨⟨h1, h2⟩, h3⟩, h4⟩, h5⟩, h6⟩ := h
    subst h1; subst h2; subst h3; subst h4; subst h5; subst h6
    unfold disconnect
    simp

/-- C5: disconnect succeeds from every state: it is a total function,
after any call every owned resource is stopped, closed or released, a
second call is a no-op, the error callback is never fired, and every
source that was active has been issued a (try/catch-guarded) stop. -/
theorem disconnect_idempotent_teardown (st : ServiceState) :
    released (disconnect st) = true ∧
    disconnect (disconnect st) = disconnect st ∧
    (disconnect st).errorsRaised = st.errorsRaised ∧
    ∀ u ∈ st.activeSources, tryStop u ∈ (disconnect st).stoppedUnits := by
  refine ⟨released_disconnect st, disconnect_of_released _ (released_disconnect st),
    disconnect_errorsRaised st, ?_⟩
  intro u hu
  rw [disconnect_stoppedUnits]
  exact List.mem_append_right _ (List.mem_map_of_mem _ hu)

/-- C9: when connect fails at the audio-setup step or at the
channel-establishment step, the onError callback receives the failure
and the full disconnect teardown runs, leaving no resource held. -/
theorem connect_failure_teardown (e : String) (ctx : AudioCtx)
    (channelResult : Except String Unit)
    (micResult : Except String MediaStreamState) (st : ServiceState) :
    ((connect (Except.error e) channelResult micResult st).errorsRaised
       = st.errorsRaised ++ [e] ∧
     released (connect (Except.error e) channelResult micResult st) = true) ∧
    ((connect (Except.ok ctx) (Except.error e) micResult st).errorsRaised
       = st.errorsRaised ++ [e] ∧
     released (connect (Except.ok ctx) (Except.error e) micResult st) = true) := by
  unfold connect onConnectError
  simp [disconnect_errorsRaised, released_disconnect]

/-! ## Helper lemmas about the PCM encoder -/

lemma toInt16_eq_self {v : ℤ} (h1 : -32768 ≤ v) (h2 : v ≤ 32767) : toInt16 v = v := by
  unfold toInt16
  have h3 : (v + 32768) % 65536 = v + 32768 :=
    Int.emod_eq_of_lt (by omega) (by omega)
  omega

lemma sampleToInt16_high {x : ℚ} (h : 1 ≤ x) : sampleToInt16 x = 32767 := by
  simp only [sampleToInt16]
  rw [min_eq_left h]
  norm_num [ratTrunc, toInt16]

lemma sampleToInt16_low {x : ℚ} (h : x ≤ -1) : sampleToInt16 x = -32768 := by
  simp only [sampleToInt16]
  rw [min_eq_right (le_trans h (by norm_num)), max_eq_left h]
  norm_num [ratTrunc, toInt16, Int.ceil_neg]

lemma sampleToInt16_neg {x : ℚ} (h1 : -1 ≤ x) (h2 : x < 0) :
    sampleToInt16 x = ratTrunc (x * 32768) := by
  simp only [sampleToInt16]
  rw [min_eq_right (by linarith), max_eq_right h1, if_pos h2]
  have hq : x * 32768 < 0 := by nlinarith
  have hr : ratTrunc (x * 32768) = ⌈x * 32768⌉ := by
    unfold ratTrunc; rw [if_pos hq]
  rw [hr]
  apply toInt16_eq_self
  · have hc : ((-32768 : ℤ) : ℚ) ≤ x * 32768 := by push_cast; nlinarith
    have := Int.ceil_mono hc
    simpa using this
  · have : ⌈x * 32768⌉ ≤ (0 : ℤ) := Int.ceil_le.mpr (by exact_mod_cast le_of_lt hq)
    omega

lemma sampleToInt16_nonneg {x : ℚ} (h1 : 0 ≤ x) (h2 : x ≤ 1) :
    sampleToInt16 x = ratTrunc (x * 32767) := by
  simp only [sampleToInt16]
  rw [min_eq_right h2, max_eq_right (by linarith), if_neg (not_lt.mpr h1)]
  have hq : (0 : ℚ) ≤ x * 32767 := by positivity
  have hr : ratTrunc (x * 32767) = ⌊x * 32767⌋ := by
    unfold ratTrunc; rw [if_neg (not_lt.mpr hq)]
  rw [hr]
  apply toInt16_eq_self
  · have : (0 : ℤ) ≤ ⌊x * 32767⌋ := Int.floor_nonneg.mpr hq
    omega
  · have hc : x * 32767 ≤ ((32767 : ℤ) : ℚ) := by push_cast; nlinarith
    have := Int.floor_mono hc
    simpa using this

/-- C3: the PCM encoder clamps each sample to [-1, 1], maps negative
values by a factor 32768 and non-negative values by a factor 32767
into a signed 16-bit integer (so 1 maps to 32767, -1 to -32768, 0 to
0, and out-of-range inputs are clamped first), and emits the base64
transport encoding of the little-endian byte pairs. -/
theorem pcm_encoder_spec :
    sampleToInt16 1 = 32767 ∧
    sampleToInt16 (-1) = -32768 ∧
    sampleToInt16 0 = 0 ∧
    (∀ x : ℚ, 1 < x → sampleToInt16 x = 32767) ∧
    (∀ x : ℚ, x < -1 → sampleToInt16 x = -32768) ∧
    (∀ x : ℚ, -1 ≤ x → x < 0 → sampleToInt16 x = ratTrunc (x * 32768)) ∧
    (∀ x : ℚ, 0 ≤ x → x ≤ 1 → sampleToInt16 x = ratTrunc (x * 32767)) ∧
    (∀ data : List ℚ, createPcmData data
       = String.mk (base64Encode ((data.map sampleToInt16).flatMap int16ToBytesLE))) := by
  refine ⟨sampleToInt16_high le_rfl, sampleToInt16_low le_rfl, ?_,
    fun x hx => sampleToInt16_high (le_of_lt hx),
    fun x hx => sampleToInt16_low (le_of_lt hx),
    fun x h1 h2 => sampleToInt16_neg h1 h2,
    fun x h1 h2 => sampleToInt16_nonneg h1 h2,
    fun data => rfl⟩
  norm_num [sampleToInt16, toInt16, ratTrunc]

/-- Witness for C3: the out-of-range sample 2 is clamped and maps to
32767. -/
theorem pcm_encoder_spec_witness : (1 : ℚ) < 2 ∧ sampleToInt16 2 = 32767 :=
  ⟨by norm_num, pcm_encoder_spec.2.2.2.1 2 (by norm_num)⟩

/-! ## Helper lemmas about the frame sampler -/

lemma length_filter_le_one (p : ℕ → Bool) (n : ℕ)
    (huniq : ∀ i j, p i = true → p j = true → i = j) :
    ((List.range n).filter p).length ≤ 1 := by
  induction n with
  | zero => simp
  | succ m ih =>
    rw [List.range_succ, List.filter_append]
    cases hp : p m with
    | false => simpa [hp] using ih
    | true =>
      have hnil : (List.range m).filter p = [] := by
        rw [List.filter_eq_nil_iff]
        intro a ha hpa
        have := huniq a m hpa hp
        subst this
        exact absurd (List.mem_range.mp ha) (lt_irrefl a)
      simp [hnil, hp]

/-- C8 counterexample: with a capture that takes 2000 ms against the
1500 ms tick interval, two captures are in flight at time 3000 ms, so
the sampler does not keep at most one capture in flight. -/
theorem frame_capture_overlap_counterexample : 1 < captureInFlightAt 2000 3000 := by
  decide

/-- C8 (amended): the interval callback has no in-flight guard: every
tick starts its own capture (none is skipped, none is queued), and at
most one capture is in flight at all times only when a capture takes
no longer than the 1500 ms tick interval. When a capture takes longer
than the interval, two captures are already in flight at the second
tick. -/
theorem frame_ticks_unguarded (n : ℕ) :
    (captureStartTimes n).length = n ∧
    (∀ i, i < n → (captureStartTimes n).getD i 0 = tickIntervalMs * (i + 1)) ∧
    (∀ captureMs t : ℕ, captureMs ≤ tickIntervalMs → captureInFlightAt captureMs t ≤ 1) ∧
    (∀ captureMs : ℕ, tickIntervalMs < captureMs →
      2 ≤ captureInFlightAt captureMs (2 * tickIntervalMs)) := by
  refine ⟨by simp [captureStartTimes], ?_, ?_, ?_⟩
  · intro i hi
    simp [captureStartTimes, frameTickStart, List.getD_eq_getElem?_getD, hi]
  · intro captureMs t hc
    have hc2 : captureMs ≤ 1500 := by simpa [tickIntervalMs] using hc
    unfold captureInFlightAt
    apply length_filter_le_one
    intro i j hi hj
    simp only [frameTickStart, tickIntervalMs, Bool.and_eq_true, decide_eq_true_eq] at hi hj
    omega
  · intro captureMs hc
    have hc2 : 1500 < captureMs := by simpa [tickIntervalMs] using hc
    unfold captureInFlightAt
    have h2 : 2 * tickIntervalMs / tickIntervalMs = 2 := by decide
    rw [h2]
    have h0 : (0 : ℕ) ∈ (List.range 2).filter
        (fun i => frameTickStart i ≤ 2 * tickIntervalMs &&
          2 * tickIntervalMs < frameTickStart i + captureMs) := by
      apply List.mem_filter.mpr
      refine ⟨by decide, ?_⟩
      simp only [frameTickStart, tickIntervalMs, Bool.and_eq_true, decide_eq_true_eq]
      omega
    have h1 : (1 : ℕ) ∈ (List.range 2).filter
        (fun i => frameTickStart i ≤ 2 * tickIntervalMs &&
          2 * tickIntervalMs < frameTickStart i + captureMs) := by
      apply List.mem_filter.mpr
      refine ⟨by decide, ?_⟩
      simp only [frameTickStart, tickIntervalMs, Bool.and_eq_true, decide_eq_true_eq]
      omega
    set l := (List.range 2).filter
        (fun i => frameTickStart i ≤ 2 * tickIntervalMs &&
          2 * tickIntervalMs < frameTickStart i + captureMs) with hl
    have hsub : ({0, 1} : Finset ℕ) ⊆ l.toFinset := by
      intro x hx
      rcases Finset.mem_insert.mp hx with rfl | hx2
      · exact List.mem_toFinset.mpr h0
      · rw [Finset.mem_singleton] at hx2
        subst hx2
        exact List.mem_toFinset.mpr h1
    calc (2 : ℕ) = ({0, 1} : Finset ℕ).card := by decide
      _ ≤ l.toFinset.card := Finset.card_le_card hsub
      _ ≤ l.length := l.toFinset_card_le

/-- Witness for C8 (amended): at capture duration 1000 ms at most one
capture is in flight at time 1600 ms, and at capture duration 2000 ms
two captures are in flight at time 3000 ms. -/
theorem frame_ticks_unguarded_witness :
    (captureStartTimes 3).length = 3 ∧
    (1000 ≤ tickIntervalMs ∧ captureInFlightAt 1000 1600 ≤ 1) ∧
    (tickIntervalMs < 2000 ∧ 2 ≤ captureInFlightAt 2000 (2 * tickIntervalMs)) :=
  ⟨(frame_ticks_unguarded 3).1,
   ⟨by decide, (frame_ticks_unguarded 3).2.2.1 1000 1600 (by decide)⟩,
   ⟨by decide, (frame_ticks_unguarded 3).2.2.2 2000 (by decide)⟩⟩

/-! ## Helper lemmas about the output audio scheduler -/

lemma backToBack_length (c : ℚ) (ds : List ℚ) :
    (backToBack c ds).length = ds.length := by
  induction ds generalizing c with
  | nil => simp [backToBack]
  | cons d ds ih => simp [backToBack, ih]

lemma backToBack_getD (ds : List ℚ) (c : ℚ) (i : ℕ) (h : i < ds.length) :
    (backToBack c ds).getD i noUnit =
      { startTime := c + (ds.take i).sum, duration := ds.getD i 0,
        started := true, finished := false, stopped := false } := by
  induction ds generalizing c i with
  | nil => simp at h
  | cons d ds ih =>
    cases i with
    | zero => simp [backToBack]
    | succ n =>
      have hn : n < ds.length := by simpa using h
      simp only [backToBack, List.getD_cons_succ, List.take_succ_cons, List.sum_cons]
      rw [ih (c + d) n hn]
      simp [add_assoc]

lemma sum_take_mono (ds : List ℚ) (hd : ∀ d ∈ ds, 0 ≤ d) (i j : ℕ) (hij : i ≤ j) :
    (ds.take i).sum ≤ (ds.take j).sum := by
  induction j, hij using Nat.le_induction with
  | base => exact le_refl _
  | succ n hn ih =>
    refine le_trans ih ?_
    by_cases hlen : n < ds.length
    · rw [List.sum_take_succ ds n hlen]
      have := hd ds[n] (List.getElem_mem hlen)
      linarith
    · rw [List.take_of_length_le (le_of_not_lt hlen),
        List.take_of_length_le (by omega)]

lemma deliverAudio_eq (now d : ℚ) (st : ServiceState) (ctx : AudioCtx) (g : ℚ)
    (hctx : st.audioContext = some ctx) (hg : st.gainNode = some g)
    (hnow : now ≤ st.audioQueueNextStartTime) :
    deliverAudio now d st =
      { st with responses := st.responses + 1,
                logs := st.logs ++ ["Received Audio Chunk"],
                audioContext := some { ctx with currentTime := now },
                audioQueueNextStartTime := st.audioQueueNextStartTime + d,
                activeSources := st.activeSources ++
                  [{ startTime := st.audioQueueNextStartTime, duration := d,
                     started := true, finished := false, stopped := false }] } := by
  unfold deliverAudio handleMessage setClock bumpResponses applyAudioBranch
    applySubtitleBranch applyInterruptBranch
  simp [hctx, hg, if_neg (not_lt.mpr hnow)]

lemma deliverInterrupt_eq (now : ℚ) (st : ServiceState) (ctx : AudioCtx)
    (hctx : st.audioContext = some ctx) :
    deliverInterrupt now st =
      { st with responses := st.responses + 1,
                logs := st.logs ++ ["Model Interrupted."],
                stoppedUnits := st.stoppedUnits ++ st.activeSources.map tryStop,
                activeSources := [],
                audioContext := some { ctx with currentTime := now },
                audioQueueNextStartTime := now } := by
  unfold deliverInterrupt handleMessage setClock bumpResponses applyAudioBranch
    applySubtitleBranch applyInterruptBranch
  simp [hctx]

lemma deliverAudio_new_start (now d : ℚ) (st : ServiceState) :
    ∀ u ∈ (deliverAudio now d st).activeSources,
      u ∈ st.activeSources ∨
        (now ≤ u.startTime ∧ st.audioQueueNextStartTime ≤ u.startTime) := by
  unfold deliverAudio handleMessage setClock bumpResponses applyAudioBranch
    applySubtitleBranch applyInterruptBranch
  cases hctx : st.audioContext with
  | none =>
    simp only [hctx, Option.map_none]
    intro u hu
    exact Or.inl hu
  | some ctx =>
    cases hg : st.gainNode with
    | none =>
      simp only [hctx, hg, Option.map_some]
      intro u hu
      exact Or.inl hu
    | some g =>
      simp only [hctx, hg, Option.map_some]
      intro u hu
      rcases List.mem_append.mp hu with h | h
      · exact Or.inl h
      · right
        rcases List.mem_singleton.mp h with rfl
        by_cases hlt : st.audioQueueNextStartTime < now <;>
          simp [hlt] <;> [skip; exact le_of_not_lt hlt]
        exact le_of_lt hlt

lemma deliverAll_spec (arrivals : List (ℚ × ℚ)) :
    ∀ (st : ServiceState) (ctx : AudioCtx) (g : ℚ),
      st.audioContext = some ctx → st.gainNode = some g →
      arrivesInTime st.audioQueueNextStartTime arrivals = true →
      (deliverAll arrivals st).activeSources
          = st.activeSources ++ backToBack st.audioQueueNextStartTime (arrivals.map Prod.snd) ∧
      (deliverAll arrivals st).audioQueueNextStartTime
          = st.audioQueueNextStartTime + (arrivals.map Prod.snd).sum := by
  induction arrivals with
  | nil =>
    intro st ctx g hctx hg ht
    simp [deliverAll, backToBack]
  | cons p rest ih =>
    intro st ctx g hctx hg ht
    obtain ⟨now, d⟩ := p
    simp only [arrivesInTime, Bool.and_eq_true, decide_eq_true_eq] at ht
    obtain ⟨hnow, ht2⟩ := ht
    have hfold : deliverAll ((now, d) :: rest) st = deliverAll rest (deliverAudio now d st) := by
      simp [deliverAll]
    rw [hfold, deliverAudio_eq now d st ctx g hctx hg hnow]
    obtain ⟨ha, hc⟩ := ih
      { st with responses := st.responses + 1,
                logs := st.logs ++ ["Received Audio Chunk"],
                audioContext := some { ctx with currentTime := now },
                audioQueueNextStartTime := st.audioQueueNextStartTime + d,
                activeSources := st.activeSources ++
                  [{ startTime := st.audioQueueNextStartTime, duration := d,
                     started := true, finished := false, stopped := false }] }
      { ctx with currentTime := now } g rfl hg ht2
    constructor
    · rw [ha]
      simp [backToBack, List.append_assoc]
    · rw [hc]
      simp only [List.map_cons, List.sum_cons]
      ring

/-- C1: with no interruption, when every inbound audio unit arrives
before the playback cursor falls behind the device clock, the
scheduled units sit exactly back-to-back: each unit starts where the
previous one ends, the first starts at the initial cursor, the cursor
advances by exactly the sum of the durations, no two scheduled
intervals overlap, and every newly scheduled unit starts at or after
the device clock time of its arrival. -/
theorem gapless_scheduling (c0 : ℚ) (st : ServiceState) (ctx : AudioCtx) (g : ℚ)
    (arrivals : List (ℚ × ℚ))
    (hctx : st.audioContext = some ctx) (hg : st.gainNode = some g)
    (hcur : st.audioQueueNextStartTime = c0) (hact : st.activeSources = [])
    (ht : arrivesInTime c0 arrivals = true)
    (hd : ∀ p ∈ arrivals, 0 ≤ p.2) :
    (deliverAll arrivals st).activeSources = backToBack c0 (arrivals.map Prod.snd) ∧
    (deliverAll arrivals st).audioQueueNextStartTime
        = c0 + (arrivals.map Prod.snd).sum ∧
    (∀ i, i + 1 < (deliverAll arrivals st).activeSources.length →
      ((deliverAll arrivals st).activeSources.getD (i + 1) noUnit).startTime
        = ((deliverAll arrivals st).activeSources.getD i noUnit).startTime
          + ((deliverAll arrivals st).activeSources.getD i noUnit).duration) ∧
    (arrivals ≠ [] →
      ((deliverAll arrivals st).activeSources.getD 0 noUnit).startTime = c0) ∧
    (∀ i j, i < j → j < (deliverAll arrivals st).activeSources.length →
      ((deliverAll arrivals st).activeSources.getD i noUnit).startTime
        + ((deliverAll arrivals st).activeSources.getD i noUnit).duration
        ≤ ((deliverAll arrivals st).activeSources.getD j noUnit).startTime) ∧
    (∀ (now2 d2 : ℚ) (s : ServiceState), ∀ u ∈ (deliverAudio now2 d2 s).activeSources,
      u ∈ s.activeSources ∨ now2 ≤ u.startTime) := by
  obtain ⟨ha, hc⟩ := deliverAll_spec arrivals st ctx g hctx hg (by rw [hcur]; exact ht)
  rw [hact, hcur] at ha
  rw [hcur] at hc
  simp only [List.nil_append] at ha
  have hds : ∀ d ∈ arrivals.map Prod.snd, 0 ≤ d := by
    intro d hd2
    obtain ⟨p, hp, rfl⟩ := List.mem_map.mp hd2
    exact hd p hp
  have hlen : (deliverAll arrivals st).activeSources.length
      = (arrivals.map Prod.snd).length := by
    rw [ha, backToBack_length]
  refine ⟨ha, hc, ?_, ?_, ?_, ?_⟩
  · intro i hi
    rw [hlen] at hi
    have hi1 : i < (arrivals.map Prod.snd).length := by omega
    rw [ha, backToBack_getD _ _ _ hi, backToBack_getD _ _ _ hi1]
    simp only
    rw [List.sum_take_succ _ _ hi1, List.getD_eq_getElem _ _ hi1]
    ring
  · intro hne
    have h0 : 0 < (arrivals.map Prod.snd).length := by
      simp [List.length_pos, hne]
    rw [ha, backToBack_getD _ _ _ h0]
    simp
  · intro i j hij hj
    rw [hlen] at hj
    have hi : i < (arrivals.map Prod.snd).length := lt_trans hij hj
    rw [ha, backToBack_getD _ _ _ hi, backToBack_getD _ _ _ hj]
    simp only
    have hmono := sum_take_mono (arrivals.map Prod.snd) hds (i + 1) j (by omega)
    rw [List.sum_take_succ _ _ hi] at hmono
    rw [List.getD_eq_getElem _ _ hi]
    linarith
  · intro now2 d2 s u hu
    rcases deliverAudio_new_start now2 d2 s u hu with h | ⟨h1, _⟩
    · exact Or.inl h
    · exact Or.inr h1

/-- Witness for C1: two units of durations 2 and 3 arriving at clock
times 5 and 8 against a cursor starting at 10. -/
theorem gapless_scheduling_witness :
    (demoState.audioContext = some demoCtx ∧
     demoState.gainNode = some 1 ∧
     demoState.audioQueueNextStartTime = 10 ∧
     demoState.activeSources = [] ∧
     arrivesInTime 10 [((5 : ℚ), (2 : ℚ)), (8, 3)] = true ∧
     (∀ p ∈ [((5 : ℚ), (2 : ℚ)), (8, 3)], 0 ≤ p.2)) ∧
    ((deliverAll [((5 : ℚ), (2 : ℚ)), (8, 3)] demoState).activeSources
        = backToBack 10 ([((5 : ℚ), (2 : ℚ)), (8, 3)].map Prod.snd) ∧
     (deliverAll [((5 : ℚ), (2 : ℚ)), (8, 3)] demoState).audioQueueNextStartTime
        = 10 + ([((5 : ℚ), (2 : ℚ)), (8, 3)].map Prod.snd).sum ∧
     (∀ i, i + 1 < (deliverAll [((5 : ℚ), (2 : ℚ)), (8, 3)] demoState).activeSources.length →
       ((deliverAll [((5 : ℚ), (2 : ℚ)), (8, 3)] demoState).activeSources.getD (i + 1) noUnit).startTime
         = ((deliverAll [((5 : ℚ), (2 : ℚ)), (8, 3)] demoState).activeSources.getD i noUnit).startTime
           + ((deliverAll [((5 : ℚ), (2 : ℚ)), (8, 3)] demoState).activeSources.getD i noUnit).duration) ∧
     ([((5 : ℚ), (2 : ℚ)), (8, 3)] ≠ ([] : List (ℚ × ℚ)) →
       ((deliverAll [((5 : ℚ), (2 : ℚ)), (8, 3)] demoState).activeSources.getD 0 noUnit).startTime = 10) ∧
     (∀ i j, i < j → j < (deliverAll [((5 : ℚ), (2 : ℚ)), (8, 3)] demoState).activeSources.length →
       ((deliverAll [((5 : ℚ), (2 : ℚ)), (8, 3)] demoState).activeSources.getD i noUnit).startTime
         + ((deliverAll [((5 : ℚ), (2 : ℚ)), (8, 3)] demoState).activeSources.getD i noUnit).duration
         ≤ ((deliverAll [((5 : ℚ), (2 : ℚ)), (8, 3)] demoState).activeSources.getD j noUnit).startTime) ∧
     (∀ (now2 d2 : ℚ) (s : ServiceState), ∀ u ∈ (deliverAudio now2 d2 s).activeSources,
       u ∈ s.activeSources ∨ now2 ≤ u.startTime)) :=
  ⟨⟨rfl, rfl, rfl, rfl, by norm_num [arrivesInTime], by decide⟩,
   gapless_scheduling 10 demoState demoCtx 1 [((5 : ℚ), (2 : ℚ)), (8, 3)]
     rfl rfl rfl rfl (by norm_num [arrivesInTime]) (by decide)⟩

/-- C2: processing an inbound interruption signal empties the
active-playback set, resets the playback cursor to the device clock
time of the interruption, issues a stop to every unit that was active
(a stop on a finished unit is a no-op and never an error), and every
unit scheduled afterwards starts at or after the interruption time. -/
theorem interruption_resets_timeline (now : ℚ) (st : ServiceState) (ctx : AudioCtx)
    (hctx : st.audioContext = some ctx) :
    (deliverInterrupt now st).activeSources = [] ∧
    (deliverInterrupt now st).audioQueueNextStartTime = now ∧
    (∀ u ∈ st.activeSources, tryStop u ∈ (deliverInterrupt now st).stoppedUnits) ∧
    (∀ u : SourceUnit, u.started = true → stopSource u = Except.ok (tryStop u)) ∧
    (∀ u : SourceUnit, u.finished = true → tryStop u = u) ∧
    (∀ u : SourceUnit, u.started = true → u.finished = false → (tryStop u).stopped = true) ∧
    (∀ (now2 d : ℚ), ∀ u ∈ (deliverAudio now2 d (deliverInterrupt now st)).activeSources,
      now ≤ u.startTime) := by
  have he := deliverInterrupt_eq now st ctx hctx
  refine ⟨by rw [he], by rw [he], ?_, ?_, ?_, ?_, ?_⟩
  · intro u hu
    rw [he]
    exact List.mem_append_right _ (List.mem_map_of_mem _ hu)
  · intro u hs
    unfold tryStop stopSource
    simp [hs]
  · intro u hf
    unfold tryStop stopSource
    by_cases hs : u.started <;> simp [hs, hf]
  · intro u hs hf
    simp [tryStop, stopSource, hs, hf]
  · intro now2 d u hu
    rcases deliverAudio_new_start now2 d _ u hu with h | ⟨_, h2⟩
    · rw [he] at h
      simp at h
    · rw [he] at h2
      simpa using h2

/-- Witness for C2: interrupting at clock time 7 a service that has
one active unit. -/
theorem interruption_resets_timeline_witness :
    (({ demoState with activeSources := [demoUnit] } : ServiceState).audioContext
        = some demoCtx) ∧
    ((deliverInterrupt 7 { demoState with activeSources := [demoUnit] }).activeSources = [] ∧
     (deliverInterrupt 7 { demoState with activeSources := [demoUnit] }).audioQueueNextStartTime = 7 ∧
     (∀ u ∈ ({ demoState with activeSources := [demoUnit] } : ServiceState).activeSources,
       tryStop u ∈ (deliverInterrupt 7 { demoState with activeSources := [demoUnit] }).stoppedUnits) ∧
     (∀ u : SourceUnit, u.started = true → stopSource u = Except.ok (tryStop u)) ∧
     (∀ u : SourceUnit, u.finished = true → tryStop u = u) ∧
     (∀ u : SourceUnit, u.started = true → u.finished = false → (tryStop u).stopped = true) ∧
     (∀ (now2 d : ℚ),
       ∀ u ∈ (deliverAudio now2 d
           (deliverInterrupt 7 { demoState with activeSources := [demoUnit] })).activeSources,
         (7 : ℚ) ≤ u.startTime)) :=
  ⟨rfl, interruption_resets_timeline 7 { demoState with activeSources := [demoUnit] } demoCtx rfl⟩
